import Mathlib

/-!
Verification of the kompics-rust core spec against the source.

Shallow embedding of:
  - docs/examples/src/bin/workers.rs (Manager/Worker fan-out example),
  - core/src/serialisation/ser_helpers.rs (message envelope (de)serialisation),
  - core/src/component/definition.rs (definition lock, dynamic port lookup),
with u64 values represented as Nat reduced modulo 2^64 where overflow matters.
-/

namespace KompicsRust

/-- 2^64: the modulus of Rust u64 arithmetic. -/
def M64 : Nat := 2 ^ 64

/-- workers.rs overflowing_sum: lhs.overflowing_add(*rhs).0, i.e. wrapping u64 addition. -/
def overflowing_sum (lhs rhs : Nat) : Nat := (lhs + rhs) % M64

/-- workers.rs triangular_number: (n * (n + 1)) / 2. -/
def triangular_number (n : Nat) : Nat := (n * (n + 1)) / 2

/-- workers.rs Work: the payload of the ask sent to the Manager.
Rust holds data as Arc of u64 slice; we use a list of Nat. -/
structure Work where
  data : List Nat
  merger : Nat → Nat → Nat
  neutral : Nat

/-- workers.rs WorkPart: a chunk of a Work item, range given as (start, end) index pair. -/
structure WorkPart where
  data : List Nat
  range : Nat × Nat
  merger : Nat → Nat → Nat
  neutral : Nat

/-- workers.rs WorkPart::from(work, range). (Lean reserves the word from as a keyword.) -/
def WorkPart.fromWork (work : Work) (range : Nat × Nat) : WorkPart :=
  { data := work.data, range := range, merger := work.merger, neutral := work.neutral }

/-- The mutable state of the workers.rs Manager component (the fields its handlers touch). -/
structure ManagerState where
  num_workers : Nat
  outstanding_request : Option Work
  result_accumulator : List Nat

/-- The Manager state right after construction: Manager::new(num_workers). -/
def managerInit (num_workers : Nat) : ManagerState :=
  { num_workers := num_workers, outstanding_request := none, result_accumulator := [] }

/-- The for-loop of Manager's ControlEvent::Start handler creates exactly one Worker child
per iteration of 0..num_workers; we record the list of created worker indices. -/
def managerOnStart (num_workers : Nat) : List Nat := List.range num_workers

/-- The while loop of Manager::receive_local:
while start < len and index < num_workers, assign range start..min len (start+stride)
to worker index, then advance start by stride. fuel = num_workers - index, so
fuel > 0 is exactly index < num_workers. Returns the assigned ranges in worker
order together with the final value of start. -/
def managerLoopAux (len stride start : Nat) : Nat → List (Nat × Nat) × Nat
  | 0 => ([], start)
  | fuel + 1 =>
    if start < len then
      let e := min len (start + stride)
      let rec_res := managerLoopAux len stride (start + stride) fuel
      ((start, e) :: rec_res.1, rec_res.2)
    else
      ([], start)

/-- Rust slice data[s..e] followed by iter().fold(neutral, merger).
In every use below s <= e <= data.length, where drop/take agrees with Rust slicing. -/
def foldSlice (data : List Nat) (s e : Nat) (merger : Nat → Nat → Nat) (neutral : Nat) : Nat :=
  ((data.drop s).take (e - s)).foldl merger neutral

/-- The else-branch (num_workers > 0) of Manager::receive_local: run the assignment loop,
tell one WorkPart per assigned range, fold the leftover slice data[start..len] itself
(or push the neutral element when nothing is left), and record the outstanding ask.
Result: (new manager state, WorkPart messages told to the workers in index order). -/
def managerDistribute (st : ManagerState) (msg : Work) : ManagerState × List WorkPart :=
  let len := msg.data.length
  let stride := len / st.num_workers
  let loop_res := managerLoopAux len stride 0 st.num_workers
  let ranges := loop_res.1
  let start := loop_res.2
  let part :=
    if start < len then foldSlice msg.data start len msg.merger msg.neutral else msg.neutral
  ({ st with
      outstanding_request := some msg,
      result_accumulator := st.result_accumulator ++ [part] },
   ranges.map (WorkPart.fromWork msg))

/-- Manager::receive_local. none models the assert!(outstanding_request.is_none()) panic.
On success: (new state, WorkPart messages sent to workers, optional inline reply).
With num_workers = 0 the manager folds the whole data itself and replies inline. -/
def managerReceiveLocal (st : ManagerState) (msg : Work) :
    Option (ManagerState × List WorkPart × Option Nat) :=
  if st.outstanding_request.isSome then
    none
  else if st.num_workers = 0 then
    some (st, [], some (msg.data.foldl msg.merger msg.neutral))
  else
    let d := managerDistribute st msg
    some (d.1, d.2, none)

/-- Worker::receive_local: fold the assigned slice and trigger the result on WorkerPort. -/
def workerReceiveLocal (msg : WorkPart) : Nat :=
  foldSlice msg.data msg.range.1 msg.range.2 msg.merger msg.neutral

/-- Manager's Require(WorkerPort) handler for one WorkResult event: if a request is
outstanding, push the partial result; once num_workers + 1 results accumulated,
fold the accumulator, clear it, take the ask and reply. Without an outstanding
request the event is only logged. Result: (new state, optional reply sent). -/
def managerHandleWorkResult (st : ManagerState) (event : Nat) : ManagerState × Option Nat :=
  match st.outstanding_request with
  | some work =>
    let acc := st.result_accumulator ++ [event]
    if acc.length = st.num_workers + 1 then
      ({ st with outstanding_request := none, result_accumulator := [] },
       some (acc.foldl work.merger work.neutral))
    else
      ({ st with result_accumulator := acc }, none)
  | none => (st, none)

/-- Deliver a list of WorkResult events to the Manager in order, collecting every
reply it sends on the way. -/
def deliverResults : ManagerState → List Nat → ManagerState × List Nat
  | st, [] => (st, [])
  | st, r :: rs =>
    let step := managerHandleWorkResult st r
    let rest := deliverResults step.1 rs
    (rest.1, step.2.toList ++ rest.2)

/-- The workers.rs round trip observed by run_task's ask(...).wait(): the fresh Manager
receives the ask, each told WorkPart is processed by its worker, the indications come
back in worker order, and the caller resolves when exactly one reply was sent.
none models a panic or a wait that never resolves. -/
def runTaskReply (num_workers : Nat) (work : Work) : Option Nat :=
  match managerReceiveLocal (managerInit num_workers) work with
  | none => none
  | some (_, _, some rep) => some rep
  | some (st, parts, none) =>
    let results := parts.map workerReceiveLocal
    match (deliverResults st results).2 with
    | [rep] => some rep
    | _ => none

/-- The Work value built by run_task for data size n: data = [1, ..., n],
merger = overflowing_sum, neutral = 0. -/
def runTaskWork (data_size : Nat) : Work :=
  { data := (List.range data_size).map (fun v => v + 1),
    merger := overflowing_sum,
    neutral := 0 }

/-- The error type of the serialisation layer; the two variants ser_helpers.rs uses. -/
inductive SerError
  | Unknown (msg : String)
  | InvalidData (msg : String)
deriving DecidableEq

/-- An actor path, either unique (a 16-byte id) or named (the bytes of a name string).
Buffers are lists of byte values. -/
inductive ActorPath
  | Unique (id : List Nat)
  | Named (name : List Nat)
deriving DecidableEq

/-- Big-endian byte encoding of n at the given width, used for the u16 length prefix
of named paths and the u64 ser id. -/
def natToBytesBE : Nat → Nat → List Nat
  | 0, _ => []
  | w + 1, n => natToBytesBE w (n / 256) ++ [n % 256]

/-- Read back a big-endian byte sequence. -/
def bytesToNatBE (bs : List Nat) : Nat := bs.foldl (fun acc b => acc * 256 + b) 0

/-- Modelled from the spec: ActorPath::serialise, whose implementation is not under
src/; it follows the Format documentation of serialise_msg: a path_type byte
(0 = unique, 1 = named), then the 16 id bytes for a unique path, else the name
length (a big-endian u16, per the framing reader) followed by the name bytes. -/
def ActorPath.serialise : ActorPath → List Nat
  | .Unique id => 0 :: id
  | .Named name => 1 :: natToBytesBE 2 name.length ++ name

/-- Modelled from the spec: ActorPath::size_hint, not under src/; the exact encoded
size of the path (only the allocation hint of serialise_msg depends on it). -/
def ActorPath.size_hint : ActorPath → Nat
  | .Unique _ => 17
  | .Named name => 3 + name.length

/-- Well-formed paths: a unique id is exactly 16 bytes and a named path fits the u16
length prefix. -/
def ActorPath.wf : ActorPath → Bool
  | .Unique id => id.length = 16
  | .Named name => name.length < 65536

/-- Modelled from the spec: ActorPath::deserialise, whose implementation is not under
src/; the inverse reader of ActorPath.serialise. Per the spec's error table a
malformed or truncated path surfaces an InvalidData error to the caller. -/
def ActorPath.deserialise : List Nat → Except SerError (ActorPath × List Nat)
  | [] => .error (.InvalidData "no path type byte")
  | t :: rest =>
    if t = 0 then
      if 16 ≤ rest.length then .ok (.Unique (rest.take 16), rest.drop 16)
      else .error (.InvalidData "too few bytes for a unique path")
    else if t = 1 then
      match rest with
      | b1 :: b2 :: rest2 =>
        if b1 * 256 + b2 ≤ rest2.length then
          .ok (.Named (rest2.take (b1 * 256 + b2)), rest2.drop (b1 * 256 + b2))
        else .error (.InvalidData "too few bytes for a named path")
      | _ => .error (.InvalidData "no length prefix for a named path")
    else .error (.InvalidData "unknown path type")

/-- Modelled from the spec: the SerIdBuf reader get_ser_id, not under src/; it reads
the 64-bit type id big-endian. Per the spec's error table a truncated buffer
surfaces an InvalidData error to the caller. -/
def get_ser_id (buf : List Nat) : Except SerError (Nat × List Nat) :=
  if 8 ≤ buf.length then .ok (bytesToNatBE (buf.take 8), buf.drop 8)
  else .error (.InvalidData "too few bytes for a ser id")

/-- A Box of dyn Serialisable at the envelope boundary: its 64-bit ser id and the raw
bytes its serialise method writes (its size_hint is the payload length). -/
structure Serialisable where
  ser_id : Nat
  payload : List Nat

/-- messaging::NetMessage as built by NetMessage::with_bytes(ser_id, src, dst, data). -/
structure NetMessage where
  ser_id : Nat
  src : ActorPath
  dst : ActorPath
  data : List Nat
deriving DecidableEq

/-- ser_helpers.rs serialise_msg: sum the size hints, reject a zero-size encoding,
then write the source path, the destination path, the 64-bit ser id and the raw
message bytes, in that order. -/
def serialise_msg (src dst : ActorPath) (msg : Serialisable) : Except SerError (List Nat) :=
  let size := src.size_hint + dst.size_hint + 8 + msg.payload.length
  if size = 0 then .error (.InvalidData "Encoded size is zero")
  else .ok (src.serialise ++ dst.serialise ++ natToBytesBE 8 msg.ser_id ++ msg.payload)

/-- ser_helpers.rs deserialise_msg: read the source path, the destination path and the
ser id; the rest of the buffer becomes the message data. Each reader failure is
propagated to the caller as a SerError. -/
def deserialise_msg (buffer : List Nat) : Except SerError NetMessage :=
  match ActorPath.deserialise buffer with
  | .error e => .error e
  | .ok (src, b1) =>
    match ActorPath.deserialise b1 with
    | .error e => .error e
    | .ok (dst, b2) =>
      match get_ser_id b2 with
      | .error e => .error e
      | .ok (ser_id, b3) => .ok { ser_id := ser_id, src := src, dst := dst, data := b3 }

/-- Modelled from the spec: the one-shot reply slot of an Ask (the ask implementation
is not under src/): "Reply is a single write; a second reply call on the same ask
fails with an already replied error." -/
inductive AskState (R : Type)
  | pending
  | replied (reply : R)

/-- Modelled from the spec: the error a second reply to the same ask fails with. -/
inductive AskError
  | AlreadyReplied
deriving DecidableEq

/-- Modelled from the spec: Ask::reply writes the reply slot at most once; a second
call fails with AlreadyReplied. -/
def askReply {R : Type} : AskState R → R → Except AskError (AskState R)
  | .pending, r => .ok (.replied r)
  | .replied _, _ => .error .AlreadyReplied

/-- Modelled from the spec: the caller's wait handle resolves exactly to the written
reply, and to nothing while the slot is unwritten. -/
def askWait {R : Type} : AskState R → Option R
  | .pending => none
  | .replied r => some r

/-- definition.rs LockPoisoned: the error for when the component definition lock has
been poisoned. -/
structure LockPoisoned

/-- The state lock_dyn_definition interacts with: the mutable_core mutex, whose std
poisoned flag is set when a handler panicked while holding the lock, and the
component definition the mutex guards. -/
structure ComponentModel (D : Type) where
  poisoned : Bool
  definition : D

/-- definition.rs AbstractComponent::lock_dyn_definition for Component<C>:
self.mutable_core.lock().map_err(|_| LockPoisoned)?, then Ok of a guard that
dereferences to the definition. A std mutex lock call errs exactly when the mutex
is poisoned. -/
def lock_dyn_definition {D : Type} (c : ComponentModel D) : Except LockPoisoned D :=
  if c.poisoned then .error ⟨⟩ else .ok c.definition

/-- The dynamic port tables of a component definition: the association of port-type
identifiers (std::any::TypeId, as Nat) to the component's provided and required
port handles (as Nat), as built by the derive(ComponentDefinition) macro. Per the
spec a component has at most one provided and one required port per port type. -/
structure DynPorts where
  provided : List (Nat × Nat)
  required : List (Nat × Nat)

/-- First-match association lookup, as the macro-generated chain of TypeId
comparisons. -/
def lookupPort : List (Nat × Nat) → Nat → Option Nat
  | [], _ => none
  | (k, v) :: rest, port_id => if k = port_id then some v else lookupPort rest port_id

/-- Modelled from the spec: the derive-macro generated
DynamicPortAccess::get_provided_port_as_any (the generated code is not under src/):
look the port up by its type identifier. -/
def get_provided_port_as_any (c : DynPorts) (port_id : Nat) : Option Nat :=
  lookupPort c.provided port_id

/-- Modelled from the spec: the derive-macro generated
DynamicPortAccess::get_required_port_as_any, mirror of the provided side. -/
def get_required_port_as_any (c : DynPorts) (port_id : Nat) : Option Nat :=
  lookupPort c.required port_id

/-- Any::downcast_mut applied to a value stored under its own TypeId: the macro stores
exactly the ProvidedPort of P (or RequiredPort of P) under the key TypeId::of of P,
so the downcast succeeds on every value the lookup returns. -/
def downcast_mut (x : Nat) : Option Nat := some x

/-- definition.rs get_provided_port for a port type P:
get_provided_port_as_any(TypeId::of::<P>()).and_then(|any| any.downcast_mut()). -/
def get_provided_port (c : DynPorts) (port_id : Nat) : Option Nat :=
  (get_provided_port_as_any c port_id).bind downcast_mut

/-- definition.rs get_required_port, mirror of get_provided_port. -/
def get_required_port (c : DynPorts) (port_id : Nat) : Option Nat :=
  (get_required_port_as_any c port_id).bind downcast_mut

end KompicsRust

namespace KompicsRust

set_option maxRecDepth 100000

/-- C1: a Manager created with num_workers = 3 that receives
Ask(data = [1..=1000], merger = wrapping_add, neutral = 0) makes the caller's
wait handle resolve to the reply 500500. -/
theorem manager_three_workers_reply_500500 :
    runTaskReply 3 (runTaskWork 1000) = some 500500 := by
  decide

/-- C2: with num_workers = 3 and data of size 1000 the Manager computes
stride = 1000 / 3 = 333, its assignment loop hands the workers the index ranges
[0..333), [333..666), [666..999) and stops with start = 999, the Manager folds
the leftover slice [999..1000) itself (accumulating its value 1000), and the
final merged reply is still 500500. -/
theorem manager_uneven_split_ranges :
    (runTaskWork 1000).data.length / (managerInit 3).num_workers = 333 ∧
    managerLoopAux 1000 333 0 3 = ([(0, 333), (333, 666), (666, 999)], 999) ∧
    ((managerDistribute (managerInit 3) (runTaskWork 1000)).2.map (fun p => p.range)) =
      [(0, 333), (333, 666), (666, 999)] ∧
    (managerDistribute (managerInit 3) (runTaskWork 1000)).1.result_accumulator =
      [foldSlice (runTaskWork 1000).data 999 1000 overflowing_sum 0] ∧
    foldSlice (runTaskWork 1000).data 999 1000 overflowing_sum 0 = 1000 ∧
    runTaskReply 3 (runTaskWork 1000) = some 500500 := by
  refine ⟨by decide, by decide, by decide, by decide, by decide, by decide⟩

/-- C3: a Manager created with num_workers = 0 that receives
Ask(data = [1..=10], merger = wrapping_add, neutral = 0) spawns no worker child
on Start, sends no WorkPart message, computes the result inline, and the reply
is 55. -/
theorem manager_zero_workers_inline_reply :
    managerOnStart 0 = [] ∧
    ((managerReceiveLocal (managerInit 0) (runTaskWork 10)).map
      (fun t => (t.2.1.length, t.2.2))) = some (0, some 55) ∧
    runTaskReply 0 (runTaskWork 10) = some 55 := by
  refine ⟨by decide, by decide, by decide⟩

/-- Folding wrapping u64 addition from a reduced accumulator adds the list sum
modulo 2^64. -/
theorem foldl_overflowing_sum (l : List Nat) : ∀ a : Nat,
    l.foldl overflowing_sum (a % M64) = (a + l.sum) % M64 := by
  induction l with
  | nil => intro a; simp
  | cons x xs ih =>
    intro a
    simp only [List.foldl_cons, List.sum_cons]
    have h1 : overflowing_sum (a % M64) x = (a + x) % M64 := by
      simp [overflowing_sum, Nat.mod_add_mod]
    rw [h1, ih (a + x), Nat.add_assoc]

/-- From the neutral element 0, folding wrapping u64 addition gives the list sum
modulo 2^64. -/
theorem foldl_overflowing_sum_zero (l : List Nat) :
    l.foldl overflowing_sum 0 = l.sum % M64 := by
  have h := foldl_overflowing_sum l 0
  simpa using h

/-- A sum of reduced summands is congruent to the sum of the summands. -/
theorem sum_map_mod (l : List Nat) : (l.map (fun x => x % M64)).sum ≡ l.sum [MOD M64] := by
  induction l with
  | nil => rfl
  | cons x xs ih =>
    simp only [List.map_cons, List.sum_cons]
    exact Nat.ModEq.add (Nat.mod_modEq x M64) ih

/-- Adjacent slices: the slice from s to m plus the tail from m give the tail from s. -/
theorem slice_sum_split (l : List Nat) (s m : Nat) (h : s ≤ m) :
    ((l.drop s).take (m - s)).sum + (l.drop m).sum = (l.drop s).sum := by
  have hd : (l.drop s).drop (m - s) = l.drop m := by
    rw [List.drop_drop]
    congr 1
    omega
  calc ((l.drop s).take (m - s)).sum + (l.drop m).sum
      = ((l.drop s).take (m - s)).sum + ((l.drop s).drop (m - s)).sum := by rw [hd]
    _ = (((l.drop s).take (m - s)) ++ ((l.drop s).drop (m - s))).sum := by
        rw [List.sum_append]
    _ = (l.drop s).sum := by rw [List.take_append_drop]

/-- The assignment loop covers the data: the slice sums of the assigned ranges plus
the sum of the leftover slice from the loop's final start give the sum of the tail
from the loop's initial start. -/
theorem managerLoopAux_sum (l : List Nat) (stride : Nat) : ∀ (fuel start : Nat),
    ((managerLoopAux l.length stride start fuel).1.map
        (fun r => ((l.drop r.1).take (r.2 - r.1)).sum)).sum +
      (l.drop (managerLoopAux l.length stride start fuel).2).sum =
    (l.drop start).sum := by
  intro fuel
  induction fuel with
  | zero => intro start; simp [managerLoopAux]
  | succ fuel ih =>
    intro start
    by_cases h : start < l.length
    · simp only [managerLoopAux, if_pos h, List.map_cons, List.sum_cons]
      rw [Nat.add_assoc, ih (start + stride)]
      by_cases h2 : start + stride ≤ l.length
      · rw [Nat.min_eq_right h2]
        exact slice_sum_split l start (start + stride) (Nat.le_add_right _ _)
      · have h3 : l.length ≤ start + stride := by omega
        rw [Nat.min_eq_left h3]
        have h4 : l.drop (start + stride) = [] := List.drop_eq_nil_of_le h3
        have h5 : (l.drop start).take (l.length - start) = l.drop start := by
          apply List.take_of_length_le
          rw [List.length_drop]
        simp [h4, h5]
    · simp [managerLoopAux, if_neg h]

/-- With stride 0 (data shorter than the worker count) the loop assigns the empty
range (start, start) to every worker and leaves start unchanged. -/
theorem managerLoopAux_stride_zero (len : Nat) : ∀ (fuel start : Nat), start < len →
    managerLoopAux len 0 start fuel = (List.replicate fuel (start, start), start) := by
  intro fuel
  induction fuel with
  | zero => intro start _; simp [managerLoopAux]
  | succ fuel ih =>
    intro start h
    simp [managerLoopAux, h, Nat.min_eq_right (Nat.le_of_lt h), ih start h,
      List.replicate_succ]

/-- With positive stride and enough data the loop assigns one range per unit of
fuel. -/
theorem managerLoopAux_length_of_le (len stride : Nat) (hs : 1 ≤ stride) :
    ∀ (fuel start : Nat), start + stride * fuel ≤ len →
      (managerLoopAux len stride start fuel).1.length = fuel := by
  intro fuel
  induction fuel with
  | zero => intro start _; simp [managerLoopAux]
  | succ fuel ih =>
    intro start hle
    have hmul : stride * (fuel + 1) = stride * fuel + stride := by ring
    rw [hmul] at hle
    have h : start < len := by omega
    simp only [managerLoopAux, if_pos h, List.length_cons]
    rw [ih (start + stride) (by omega)]

/-- For nonempty data and at least one worker, the Manager's loop with
stride = len / num_workers assigns exactly num_workers ranges. -/
theorem managerLoopAux_length_run (len nw : Nat) (hnw : 1 ≤ nw) (hlen : 0 < len) :
    (managerLoopAux len (len / nw) 0 nw).1.length = nw := by
  by_cases h : len / nw = 0
  · rw [h, managerLoopAux_stride_zero len nw 0 hlen]
    simp
  · have h1 : 1 ≤ len / nw := Nat.one_le_iff_ne_zero.mpr h
    have hd := Nat.div_mul_le_self len nw
    exact managerLoopAux_length_of_le len (len / nw) h1 nw 0 (by omega)

/-- Delivering exactly the missing number of worker results to a Manager with an
outstanding request makes it fold its accumulator followed by the results, reply
once with that fold, and clear the outstanding request and the accumulator. -/
theorem deliverResults_complete (w : Work) : ∀ (rs : List Nat) (st : ManagerState),
    st.outstanding_request = some w →
    st.result_accumulator.length + rs.length = st.num_workers + 1 →
    rs ≠ [] →
    deliverResults st rs =
      ({ st with outstanding_request := none, result_accumulator := [] },
       [(st.result_accumulator ++ rs).foldl w.merger w.neutral]) := by
  intro rs
  induction rs with
  | nil => intro st _ _ hne; exact absurd rfl hne
  | cons r rs ih =>
    intro st hout hlen _
    cases rs with
    | nil =>
      have hacc : (st.result_accumulator ++ [r]).length = st.num_workers + 1 := by
        have hlen2 : st.result_accumulator.length + 1 = st.num_workers + 1 := by
          simpa using hlen
        simpa using hlen2
      simp [deliverResults, managerHandleWorkResult, hout, hacc]
    | cons r2 rs2 =>
      have hlen2 : st.result_accumulator.length + (rs2.length + 2) = st.num_workers + 1 := by
        simpa [Nat.add_assoc] using hlen
      have hacc : ¬st.result_accumulator.length = st.num_workers := by omega
      have hstep : managerHandleWorkResult st r =
          ({ st with result_accumulator := st.result_accumulator ++ [r] }, none) := by
        simp [managerHandleWorkResult, hout, hacc]
      have hrec := ih { st with result_accumulator := st.result_accumulator ++ [r] }
        (by simp [hout])
        (by simp only [List.length_append, List.length_cons, List.length_nil]; omega)
        (by simp)
      have hunfold : deliverResults st (r :: r2 :: rs2) =
          ((deliverResults (managerHandleWorkResult st r).1 (r2 :: rs2)).1,
           (managerHandleWorkResult st r).2.toList ++
             (deliverResults (managerHandleWorkResult st r).1 (r2 :: rs2)).2) := rfl
      rw [hunfold, hstep]
      simp only [hrec]
      simp

/-- With at least one worker, receive_local on an idle Manager takes the distribution
branch: it records the ask and sends the WorkParts, with no inline reply. -/
theorem managerReceiveLocal_distributes (nw : Nat) (w : Work) (hnw : 1 ≤ nw) :
    managerReceiveLocal (managerInit nw) w =
      some ((managerDistribute (managerInit nw) w).1,
            (managerDistribute (managerInit nw) w).2, none) := by
  have hnw0 : ¬nw = 0 := by omega
  simp [managerReceiveLocal, managerInit, hnw0]

/-- One full round of the fan-out protocol: delivering every worker's result for the
distributed parts makes the Manager reply exactly once, with the fold of its own
partial result followed by the worker results, and return to the idle state. -/
theorem deliverRound (nw : Nat) (w : Work) (hnw : 1 ≤ nw) (hdata : w.data ≠ []) :
    deliverResults (managerDistribute (managerInit nw) w).1
        ((managerDistribute (managerInit nw) w).2.map workerReceiveLocal) =
      ({ num_workers := nw, outstanding_request := none, result_accumulator := [] },
       [((managerDistribute (managerInit nw) w).1.result_accumulator ++
          (managerDistribute (managerInit nw) w).2.map workerReceiveLocal).foldl
          w.merger w.neutral]) := by
  have hlen : 0 < w.data.length := List.length_pos.mpr hdata
  have hparts : ((managerDistribute (managerInit nw) w).2.map workerReceiveLocal).length
      = nw := by
    show (((managerLoopAux w.data.length (w.data.length / nw) 0 nw).1.map
      (WorkPart.fromWork w)).map workerReceiveLocal).length = nw
    rw [List.length_map, List.length_map]
    exact managerLoopAux_length_run w.data.length nw hnw hlen
  have hacc1 : (managerDistribute (managerInit nw) w).1.result_accumulator.length = 1 := rfl
  have hnum : (managerDistribute (managerInit nw) w).1.num_workers = nw := rfl
  have hres := deliverResults_complete w
    ((managerDistribute (managerInit nw) w).2.map workerReceiveLocal)
    (managerDistribute (managerInit nw) w).1
    rfl
    (by rw [hacc1, hparts, hnum, Nat.add_comm])
    (by
      intro hcon
      rw [hcon] at hparts
      simp at hparts
      omega)
  rw [hres, hnum]

/-- C9: for every num_workers >= 1 and every nonempty data vector, the fan-out round
with merger wrapping_add and neutral 0 replies, after num_workers + 1 partial
results accumulated, with the sum of the entire data modulo 2^64: the
stride = len / num_workers partition plus the Manager's leftover slice covers
every index exactly once, including the stride = 0 case where every worker
receives an empty range and contributes the neutral element while the Manager
folds the whole data itself. -/
theorem manager_reply_is_total_sum (w : Work) (nw : Nat) (hnw : 1 ≤ nw)
    (hdata : w.data ≠ []) (hm : w.merger = overflowing_sum) (hn : w.neutral = 0) :
    runTaskReply nw w = some (w.data.sum % M64) := by
  have hrecv := managerReceiveLocal_distributes nw w hnw
  have hround := deliverRound nw w hnw hdata
  have hrun : runTaskReply nw w =
      match (deliverResults (managerDistribute (managerInit nw) w).1
          ((managerDistribute (managerInit nw) w).2.map workerReceiveLocal)).2 with
        | [rep] => some rep
        | _ => none := by
    simp only [runTaskReply, hrecv]
  rw [hrun, hround]
  show some (((managerDistribute (managerInit nw) w).1.result_accumulator ++
      (managerDistribute (managerInit nw) w).2.map workerReceiveLocal).foldl
        w.merger w.neutral)
    = some (w.data.sum % M64)
  congr 1
  have haccval : (managerDistribute (managerInit nw) w).1.result_accumulator =
      [if (managerLoopAux w.data.length (w.data.length / nw) 0 nw).2 < w.data.length then
         foldSlice w.data (managerLoopAux w.data.length (w.data.length / nw) 0 nw).2
           w.data.length w.merger w.neutral
       else w.neutral] := rfl
  have hresults : (managerDistribute (managerInit nw) w).2.map workerReceiveLocal =
      (managerLoopAux w.data.length (w.data.length / nw) 0 nw).1.map
        (fun r => foldSlice w.data r.1 r.2 w.merger w.neutral) := by
    have h1 : (managerDistribute (managerInit nw) w).2 =
        (managerLoopAux w.data.length (w.data.length / nw) 0 nw).1.map
          (WorkPart.fromWork w) := rfl
    rw [h1, List.map_map]
    rfl
  rw [haccval, hresults, hm, hn, List.singleton_append]
  rw [foldl_overflowing_sum_zero, List.sum_cons]
  have hpart :
      (if (managerLoopAux w.data.length (w.data.length / nw) 0 nw).2 < w.data.length then
         foldSlice w.data (managerLoopAux w.data.length (w.data.length / nw) 0 nw).2
           w.data.length overflowing_sum 0
       else 0) ≡
      (w.data.drop (managerLoopAux w.data.length (w.data.length / nw) 0 nw).2).sum
        [MOD M64] := by
    by_cases hf :
        (managerLoopAux w.data.length (w.data.length / nw) 0 nw).2 < w.data.length
    · rw [if_pos hf]
      have htake :
          (w.data.drop (managerLoopAux w.data.length (w.data.length / nw) 0 nw).2).take
            (w.data.length - (managerLoopAux w.data.length (w.data.length / nw) 0 nw).2) =
          w.data.drop (managerLoopAux w.data.length (w.data.length / nw) 0 nw).2 := by
        apply List.take_of_length_le
        rw [List.length_drop]
      show ((w.data.drop (managerLoopAux w.data.length (w.data.length / nw) 0 nw).2).take
          (w.data.length - (managerLoopAux w.data.length (w.data.length / nw) 0 nw).2)).foldl
          overflowing_sum 0 ≡ _ [MOD M64]
      rw [foldl_overflowing_sum_zero, htake]
      exact Nat.mod_modEq _ _
    · rw [if_neg hf]
      have hdrop : w.data.drop (managerLoopAux w.data.length (w.data.length / nw) 0 nw).2
          = [] := List.drop_eq_nil_of_le (by omega)
      rw [hdrop]
      rfl
  have hmapeq :
      (managerLoopAux w.data.length (w.data.length / nw) 0 nw).1.map
        (fun r => foldSlice w.data r.1 r.2 overflowing_sum 0) =
      ((managerLoopAux w.data.length (w.data.length / nw) 0 nw).1.map
        (fun r => ((w.data.drop r.1).take (r.2 - r.1)).sum)).map (fun x => x % M64) := by
    rw [List.map_map]
    apply List.map_congr_left
    intro r _
    show foldSlice w.data r.1 r.2 overflowing_sum 0 = _
    exact foldl_overflowing_sum_zero _
  have hressum :
      ((managerLoopAux w.data.length (w.data.length / nw) 0 nw).1.map
        (fun r => foldSlice w.data r.1 r.2 overflowing_sum 0)).sum ≡
      ((managerLoopAux w.data.length (w.data.length / nw) 0 nw).1.map
        (fun r => ((w.data.drop r.1).take (r.2 - r.1)).sum)).sum [MOD M64] := by
    rw [hmapeq]
    exact sum_map_mod _
  have hcover := managerLoopAux_sum w.data (w.data.length / nw) nw 0
  rw [List.drop_zero] at hcover
  have hcomb := Nat.ModEq.add hpart hressum
  show (_ + _) % M64 = w.data.sum % M64
  rw [hcomb]
  rw [Nat.add_comm, hcover]

/-- C10: the Manager supports at most one outstanding request. Its receive_local
asserts that outstanding_request is none on entry, so a second Ask delivered
while one is outstanding panics the handler (modelled as none); and when each
ask is fully answered before the next arrives, the assertion never fires and
outstanding_request cycles none, then some, then none over one round. -/
theorem manager_single_outstanding_request (nw : Nat) (w w' : Work)
    (hnw : 1 ≤ nw) (hdata : w.data ≠ []) :
    (∀ st : ManagerState, st.outstanding_request.isSome = true →
      managerReceiveLocal st w' = none) ∧
    (managerInit nw).outstanding_request = none ∧
    managerReceiveLocal (managerInit nw) w =
      some ((managerDistribute (managerInit nw) w).1,
            (managerDistribute (managerInit nw) w).2, none) ∧
    (managerDistribute (managerInit nw) w).1.outstanding_request = some w ∧
    (deliverResults (managerDistribute (managerInit nw) w).1
        ((managerDistribute (managerInit nw) w).2.map
          workerReceiveLocal)).1.outstanding_request = none := by
  refine ⟨?_, rfl, managerReceiveLocal_distributes nw w hnw, rfl, ?_⟩
  · intro st h
    simp [managerReceiveLocal, h]
  · rw [deliverRound nw w hnw hdata]

/-- The big-endian encoding has exactly the requested width. -/
theorem natToBytesBE_length : ∀ (w n : Nat), (natToBytesBE w n).length = w := by
  intro w
  induction w with
  | zero => intro n; rfl
  | succ w ih => intro n; simp [natToBytesBE, ih]

/-- Reading one more low byte multiplies the accumulator by the base. -/
theorem bytesToNatBE_append_singleton (xs : List Nat) (b : Nat) :
    bytesToNatBE (xs ++ [b]) = bytesToNatBE xs * 256 + b := by
  simp [bytesToNatBE, List.foldl_append]

/-- Reading back a width-w big-endian encoding recovers the value modulo 256^w. -/
theorem bytesToNatBE_natToBytesBE : ∀ (w n : Nat),
    bytesToNatBE (natToBytesBE w n) = n % 256 ^ w := by
  intro w
  induction w with
  | zero => intro n; simp [natToBytesBE, bytesToNatBE, Nat.mod_one]
  | succ w ih =>
    intro n
    show bytesToNatBE (natToBytesBE w (n / 256) ++ [n % 256]) = n % 256 ^ (w + 1)
    rw [bytesToNatBE_append_singleton, ih (n / 256)]
    have hpow : (256 : Nat) ^ (w + 1) = 256 * 256 ^ w := by ring
    rw [hpow, Nat.mod_mul]
    ring

/-- Reading the ser id off its 8-byte big-endian encoding recovers the id modulo 2^64
and the rest of the buffer. -/
theorem get_ser_id_encode (n : Nat) (rest : List Nat) :
    get_ser_id (natToBytesBE 8 n ++ rest) = .ok (n % M64, rest) := by
  have hlen : (natToBytesBE 8 n).length = 8 := natToBytesBE_length 8 n
  have htake : (natToBytesBE 8 n ++ rest).take 8 = natToBytesBE 8 n :=
    List.take_left' hlen
  have hdrop : (natToBytesBE 8 n ++ rest).drop 8 = rest :=
    List.drop_left' hlen
  have hm : (256 : Nat) ^ 8 = M64 := by norm_num [M64]
  simp [get_ser_id, hlen, htake, hdrop, bytesToNatBE_natToBytesBE, hm]

/-- Deserialising a well-formed serialised path consumes exactly the path's encoding
and returns the path together with the rest of the buffer. -/
theorem ActorPath.deserialise_serialise (p : ActorPath) (rest : List Nat)
    (hp : p.wf = true) : ActorPath.deserialise (p.serialise ++ rest) = .ok (p, rest) := by
  cases p with
  | Unique id =>
    have hlen : id.length = 16 := by simpa [ActorPath.wf] using hp
    show ActorPath.deserialise (0 :: (id ++ rest)) = .ok (.Unique id, rest)
    have htake : (id ++ rest).take 16 = id := List.take_left' hlen
    have hdrop : (id ++ rest).drop 16 = rest := List.drop_left' hlen
    simp [ActorPath.deserialise, hlen, htake, hdrop]
  | Named name =>
    have hlen : name.length < 65536 := by simpa [ActorPath.wf] using hp
    have henc : natToBytesBE 2 name.length =
        [name.length / 256 % 256, name.length % 256] := by
      simp [natToBytesBE]
    show ActorPath.deserialise
        ((1 :: natToBytesBE 2 name.length ++ name) ++ rest) = .ok (.Named name, rest)
    rw [henc]
    show ActorPath.deserialise
        (1 :: (name.length / 256 % 256) :: (name.length % 256) :: (name ++ rest)) =
      .ok (.Named name, rest)
    have hval : name.length / 256 % 256 * 256 + name.length % 256 = name.length := by
      omega
    have hge : name.length ≤ (name ++ rest).length := by
      rw [List.length_append]
      omega
    have htake : (name ++ rest).take name.length = name := List.take_left' rfl
    have hdrop : (name ++ rest).drop name.length = rest := List.drop_left' rfl
    simp [ActorPath.deserialise, hval, hge, htake, hdrop]

/-- C4: serialise_msg writes, in order, the source actor path, the destination actor
path, the 64-bit ser id and the raw payload bytes; and deserialise_msg applied to
such a buffer returns a NetMessage with the same ser id, source path, destination
path and payload bytes. -/
theorem serialise_msg_roundtrip (src dst : ActorPath) (msg : Serialisable)
    (hsrc : src.wf = true) (hdst : dst.wf = true) (hid : msg.ser_id < M64) :
    serialise_msg src dst msg =
      .ok (src.serialise ++ dst.serialise ++ natToBytesBE 8 msg.ser_id ++ msg.payload) ∧
    deserialise_msg
        (src.serialise ++ dst.serialise ++ natToBytesBE 8 msg.ser_id ++ msg.payload) =
      .ok { ser_id := msg.ser_id, src := src, dst := dst, data := msg.payload } := by
  constructor
  · have hsz : ¬(src.size_hint + dst.size_hint + 8 + msg.payload.length = 0) := by omega
    simp [serialise_msg, hsz]
  · rw [List.append_assoc, List.append_assoc]
    have h1 : ActorPath.deserialise
        (src.serialise ++ (dst.serialise ++ (natToBytesBE 8 msg.ser_id ++ msg.payload))) =
        .ok (src, dst.serialise ++ (natToBytesBE 8 msg.ser_id ++ msg.payload)) :=
      ActorPath.deserialise_serialise src _ hsrc
    have h2 : ActorPath.deserialise
        (dst.serialise ++ (natToBytesBE 8 msg.ser_id ++ msg.payload)) =
        .ok (dst, natToBytesBE 8 msg.ser_id ++ msg.payload) :=
      ActorPath.deserialise_serialise dst _ hdst
    have h3 : get_ser_id (natToBytesBE 8 msg.ser_id ++ msg.payload) =
        .ok (msg.ser_id % M64, msg.payload) := get_ser_id_encode _ _
    simp [deserialise_msg, h1, h2, h3, Nat.mod_eq_of_lt hid]

/-- A successful path deserialisation consumes at least 3 bytes of the buffer. -/
theorem deserialise_path_consumes (buf : List Nat) (p : ActorPath) (rest : List Nat)
    (h : ActorPath.deserialise buf = .ok (p, rest)) : rest.length + 3 ≤ buf.length := by
  match buf with
  | [] => exact absurd h (by simp [ActorPath.deserialise])
  | t :: r =>
    simp only [ActorPath.deserialise] at h
    split at h
    · split at h
      · rename_i hge
        simp only [Except.ok.injEq, Prod.mk.injEq] at h
        obtain ⟨-, hrest⟩ := h
        subst hrest
        rw [List.length_drop, List.length_cons]
        omega
      · exact absurd h (by simp)
    · split at h
      · split at h
        · split at h
          · rename_i b1 b2 rest2 hge
            simp only [Except.ok.injEq, Prod.mk.injEq] at h
            obtain ⟨-, hrest⟩ := h
            subst hrest
            rw [List.length_drop]
            simp only [List.length_cons]
            omega
          · exact absurd h (by simp)
        · exact absurd h (by simp)
      · exact absurd h (by simp)

/-- C8: deserialise_msg on any buffer too short to contain two actor paths, a 64-bit
ser id and a payload returns a SerError to the caller instead of panicking. -/
theorem deserialise_msg_short_buffer_errors (buf : List Nat) (h : buf.length < 14) :
    ∃ e, deserialise_msg buf = Except.error e := by
  cases h1 : ActorPath.deserialise buf with
  | error e => exact ⟨e, by simp [deserialise_msg, h1]⟩
  | ok v =>
    obtain ⟨src, b1⟩ := v
    have hc1 := deserialise_path_consumes buf src b1 h1
    cases h2 : ActorPath.deserialise b1 with
    | error e => exact ⟨e, by simp [deserialise_msg, h1, h2]⟩
    | ok v2 =>
      obtain ⟨dst, b2⟩ := v2
      have hc2 := deserialise_path_consumes b1 dst b2 h2
      have hb2 : ¬(8 ≤ b2.length) := by omega
      have h3 : get_ser_id b2 = .error (.InvalidData "too few bytes for a ser id") := by
        simp [get_ser_id, hb2]
      exact ⟨SerError.InvalidData "too few bytes for a ser id",
        by simp [deserialise_msg, h1, h2, h3]⟩

/-- C5: on a live responder, the first reply to an ask writes the slot and the
caller's wait handle resolves exactly to that reply (and to nothing before it),
while a second reply on the same ask delivers nothing and fails with
AlreadyReplied. -/
theorem ask_reply_exactly_once {R : Type} (r r' : R) :
    askReply AskState.pending r = .ok (.replied r) ∧
    askWait (AskState.replied r) = some r ∧
    askWait (AskState.pending : AskState R) = none ∧
    askReply (AskState.replied r) r' = .error .AlreadyReplied :=
  ⟨rfl, rfl, rfl, rfl⟩

/-- C6: lock_dyn_definition returns the LockPoisoned error exactly when the
definition mutex has been poisoned by a prior handler panic, and otherwise
returns Ok with access to the component definition. -/
theorem lock_dyn_definition_poisoned {D : Type} (c : ComponentModel D) :
    (lock_dyn_definition c = .error ⟨⟩ ↔ c.poisoned = true) ∧
    (lock_dyn_definition c = .ok c.definition ↔ c.poisoned = false) := by
  cases hc : c.poisoned <;> simp [lock_dyn_definition, hc]

/-- A lookup misses exactly the keys that are absent. -/
theorem lookupPort_eq_none (pid : Nat) : ∀ (l : List (Nat × Nat)),
    pid ∉ l.map Prod.fst → lookupPort l pid = none := by
  intro l
  induction l with
  | nil => intro _; rfl
  | cons kv rest ih =>
    obtain ⟨k, v⟩ := kv
    intro h
    simp only [List.map_cons, List.mem_cons] at h
    push_neg at h
    obtain ⟨hk, hmem⟩ := h
    have hk' : ¬k = pid := fun hc => hk hc.symm
    simp [lookupPort, hk', ih hmem]

/-- With no duplicate keys, a lookup finds exactly the stored value of its key. -/
theorem lookupPort_eq_some (pid v : Nat) : ∀ (l : List (Nat × Nat)),
    (pid, v) ∈ l → (l.map Prod.fst).Nodup → lookupPort l pid = some v := by
  intro l
  induction l with
  | nil => intro hmem _; simp at hmem
  | cons kv rest ih =>
    obtain ⟨k, u⟩ := kv
    intro hmem hnd
    simp only [List.map_cons, List.nodup_cons] at hnd
    obtain ⟨hk, hnd'⟩ := hnd
    rw [List.mem_cons] at hmem
    cases hmem with
    | inl he =>
      obtain ⟨hpk, hvu⟩ := Prod.mk.injEq .. ▸ he
      subst hpk
      subst hvu
      simp [lookupPort]
    | inr hmem' =>
      have hkpid : ¬k = pid := by
        intro hc
        subst hc
        exact hk (List.mem_map_of_mem Prod.fst hmem')
      simp [lookupPort, hkpid, ih hmem' hnd']

/-- C7: dynamic port lookup returns none when the component has no provided
(respectively required) port registered under the port type's identifier, and
returns the stored port when it has one. -/
theorem get_port_lookup (c : DynPorts) (pid : Nat) :
    (pid ∉ c.provided.map Prod.fst → get_provided_port c pid = none) ∧
    (∀ v, (pid, v) ∈ c.provided → (c.provided.map Prod.fst).Nodup →
      get_provided_port c pid = some v) ∧
    (pid ∉ c.required.map Prod.fst → get_required_port c pid = none) ∧
    (∀ v, (pid, v) ∈ c.required → (c.required.map Prod.fst).Nodup →
      get_required_port c pid = some v) := by
  refine ⟨?_, ?_, ?_, ?_⟩
  · intro h
    simp [get_provided_port, get_provided_port_as_any, lookupPort_eq_none pid c.provided h]
  · intro v hmem hnd
    simp [get_provided_port, get_provided_port_as_any,
      lookupPort_eq_some pid v c.provided hmem hnd, downcast_mut]
  · intro h
    simp [get_required_port, get_required_port_as_any, lookupPort_eq_none pid c.required h]
  · intro v hmem hnd
    simp [get_required_port, get_required_port_as_any,
      lookupPort_eq_some pid v c.required hmem hnd, downcast_mut]

/-- Witness for C4 at concrete paths and payload. -/
theorem serialise_msg_roundtrip_witness :
    (ActorPath.Unique (List.replicate 16 7)).wf = true ∧
    (ActorPath.Named [65, 66]).wf = true ∧
    ({ ser_id := 42, payload := [1, 2, 3] } : Serialisable).ser_id < M64 ∧
    (serialise_msg (.Unique (List.replicate 16 7)) (.Named [65, 66])
        { ser_id := 42, payload := [1, 2, 3] } =
      .ok ((ActorPath.Unique (List.replicate 16 7)).serialise ++
        (ActorPath.Named [65, 66]).serialise ++ natToBytesBE 8 42 ++ [1, 2, 3]) ∧
    deserialise_msg ((ActorPath.Unique (List.replicate 16 7)).serialise ++
        (ActorPath.Named [65, 66]).serialise ++ natToBytesBE 8 42 ++ [1, 2, 3]) =
      .ok { ser_id := 42, src := .Unique (List.replicate 16 7), dst := .Named [65, 66],
            data := [1, 2, 3] }) :=
  ⟨by decide, by decide, by decide,
   serialise_msg_roundtrip (.Unique (List.replicate 16 7)) (.Named [65, 66])
     { ser_id := 42, payload := [1, 2, 3] } (by decide) (by decide) (by decide)⟩

/-- Witness for C8 at the empty buffer. -/
theorem deserialise_msg_short_buffer_errors_witness :
    ([] : List Nat).length < 14 ∧ ∃ e, deserialise_msg [] = Except.error e :=
  ⟨by decide, deserialise_msg_short_buffer_errors [] (by decide)⟩

/-- Witness for C9 with three workers and two data items (the stride-zero case). -/
theorem manager_reply_is_total_sum_witness :
    1 ≤ 3 ∧
    ({ data := [1, 2], merger := overflowing_sum, neutral := 0 } : Work).data ≠ [] ∧
    ({ data := [1, 2], merger := overflowing_sum, neutral := 0 } : Work).merger =
      overflowing_sum ∧
    ({ data := [1, 2], merger := overflowing_sum, neutral := 0 } : Work).neutral = 0 ∧
    runTaskReply 3 { data := [1, 2], merger := overflowing_sum, neutral := 0 } =
      some (({ data := [1, 2], merger := overflowing_sum, neutral := 0 } : Work).data.sum
        % M64) :=
  ⟨by decide, by decide, rfl, rfl,
   manager_reply_is_total_sum { data := [1, 2], merger := overflowing_sum, neutral := 0 }
     3 (by decide) (by decide) rfl rfl⟩

/-- Witness for C10 with one worker and singleton data. -/
theorem manager_single_outstanding_request_witness :
    (∀ st : ManagerState, st.outstanding_request.isSome = true →
      managerReceiveLocal st { data := [9], merger := overflowing_sum, neutral := 0 }
        = none) ∧
    (managerInit 1).outstanding_request = none ∧
    managerReceiveLocal (managerInit 1)
        { data := [7], merger := overflowing_sum, neutral := 0 } =
      some ((managerDistribute (managerInit 1)
              { data := [7], merger := overflowing_sum, neutral := 0 }).1,
            (managerDistribute (managerInit 1)
              { data := [7], merger := overflowing_sum, neutral := 0 }).2, none) ∧
    (managerDistribute (managerInit 1)
        { data := [7], merger := overflowing_sum, neutral := 0 }).1.outstanding_request =
      some { data := [7], merger := overflowing_sum, neutral := 0 } ∧
    (deliverResults (managerDistribute (managerInit 1)
          { data := [7], merger := overflowing_sum, neutral := 0 }).1
        ((managerDistribute (managerInit 1)
            { data := [7], merger := overflowing_sum, neutral := 0 }).2.map
          workerReceiveLocal)).1.outstanding_request = none :=
  manager_single_outstanding_request 1
    { data := [7], merger := overflowing_sum, neutral := 0 }
    { data := [9], merger := overflowing_sum, neutral := 0 }
    (by decide) (by decide)

/-- Witness for C7 at a concrete port table. -/
theorem get_port_lookup_witness :
    ((3 : Nat) ∉ ([(1, 10)] : List (Nat × Nat)).map Prod.fst ∧
      get_provided_port { provided := [(1, 10)], required := [(2, 20)] } 3 = none) ∧
    ((1, 10) ∈ ([(1, 10)] : List (Nat × Nat)) ∧
      (([(1, 10)] : List (Nat × Nat)).map Prod.fst).Nodup ∧
      get_provided_port { provided := [(1, 10)], required := [(2, 20)] } 1 = some 10) ∧
    ((5 : Nat) ∉ ([(2, 20)] : List (Nat × Nat)).map Prod.fst ∧
      get_required_port { provided := [(1, 10)], required := [(2, 20)] } 5 = none) ∧
    ((2, 20) ∈ ([(2, 20)] : List (Nat × Nat)) ∧
      (([(2, 20)] : List (Nat × Nat)).map Prod.fst).Nodup ∧
      get_required_port { provided := [(1, 10)], required := [(2, 20)] } 2 = some 20) :=
  ⟨⟨by decide,
    (get_port_lookup { provided := [(1, 10)], required := [(2, 20)] } 3).1 (by decide)⟩,
   ⟨by decide, by decide,
    (get_port_lookup { provided := [(1, 10)], required := [(2, 20)] } 1).2.1 10
      (by decide) (by decide)⟩,
   ⟨by decide,
    (get_port_lookup { provided := [(1, 10)], required := [(2, 20)] } 5).2.2.1
      (by decide)⟩,
   ⟨by decide, by decide,
    (get_port_lookup { provided := [(1, 10)], required := [(2, 20)] } 2).2.2.2 20
      (by decide) (by decide)⟩⟩

end KompicsRust
